import Mathlib

/-!
Verification of the PGAGI hiring-assistant WebSocket wrapper.

Shallow embedding of:
- `src/server/main.py` (ConnectionManager, websocket_endpoint),
- `src/server/llms/gemini.py` (the Turn Processor imported by main.py),
- `src/server/LLMs/gemini.py` (the older Turn Processor variant).

The external provider (Gemini) is modelled by an oracle `ProviderResult`:
either the call raises somewhere inside the `try` block, or it yields a
finite list of streamed chunks, each chunk carrying an optional `text`
attribute (absent/None is `none`).  The wrapper code downstream of that
oracle is translated directly.
-/

set_option maxRecDepth 100000

namespace PGAGI

/-! Python string primitives.  `String.toLower`/`String.trim` in Lean do not
reduce well in the kernel, so `str.lower()` and `str.strip()` are embedded
directly over the character list, with Python's ASCII whitespace set. -/

/-- Python `str.strip()` whitespace: space, tab, newline, carriage return,
vertical tab, form feed. -/
def isPySpace (c : Char) : Bool :=
  c = ' ' || c = '\t' || c = '\n' || c = '\r' || c = '\x0b' || c = '\x0c'

/-- Python `str.lower()` (ASCII case mapping). -/
def pyLower (s : String) : String :=
  ⟨s.data.map Char.toLower⟩

/-- Python `str.strip()`: drop leading and trailing whitespace. -/
def pyStrip (s : String) : String :=
  ⟨((s.data.dropWhile isPySpace).reverse.dropWhile isPySpace).reverse⟩

/-! Data model (`src/server/main.py` session dicts). -/

/-- One history entry `{'role': r, 'parts': [{'text': t}]}`. -/
structure Turn where
  role : String
  text : String
deriving DecidableEq

/-- A per-connection session dict.  `main.py` stores keys `history`,
`collected_data`, `tech_questions_asked`, `tech_answers_collected`;
`application_completed` is never stored (gemini.py reads it with
`session.get('application_completed', False)`), so it is an `Option Bool`
that stays `none`. -/
structure Session where
  history : List Turn
  collected_data : List (String × Option String)
  tech_questions_asked : Bool
  tech_answers_collected : Bool
  application_completed : Option Bool
deriving DecidableEq

/-- Outcome of the provider interaction inside the `try` block: `err` when any
step of the call raises, `ok chunks` when the stream yields `chunks`, each with
an optional `text`. -/
inductive ProviderResult where
  | ok (chunks : List (Option String))
  | err
deriving DecidableEq

/-! `src/server/llms/gemini.py` (the variant imported by main.py). -/

/-- `REQUIRED_FIELDS` from gemini.py. -/
def REQUIRED_FIELDS : List String :=
  ["Full Name", "Email Address", "Phone Number", "Years of Experience",
   "Desired Position(s)", "Current Location", "Tech Stack"]

/-- The fixed error fallback returned by the `except` handler in both gemini
variants. -/
def techIssueFallback : String :=
  "I'm sorry, I encountered a technical issue. Could you please rephrase that?"

/-- The fixed empty-response fallback in llms/gemini.py line 220.  Note the
apostrophe in `couldn’t` is U+2019 in the source. -/
def noResponseFallback : String :=
  "I'm sorry, I couldn’t generate a response."

/-- The accumulation loop of llms/gemini.py lines 214-217:
`text = getattr(chunk, "text", None); if text: full_response += text`;
chunks with absent/None or empty text are skipped. -/
def accumChunks : List (Option String) → String → String
  | [], acc => acc
  | some t :: rest, acc =>
      if t = "" then accumChunks rest acc else accumChunks rest (acc ++ t)
  | none :: rest, acc => accumChunks rest acc

/-- Reply computed by llms/gemini.py `get_next_bot_response` from the provider
oracle: on success, `full_response.strip() if full_response else fallback`;
on any exception, the technical-issue fallback.  (The session shapes only the
outbound request, which the oracle subsumes; the reply string does not depend
on it.) -/
def replyOf : ProviderResult → String
  | ProviderResult.err => techIssueFallback
  | ProviderResult.ok chunks =>
      let full := accumChunks chunks ""
      if full = "" then noResponseFallback else pyStrip full

/-- llms/gemini.py `get_next_bot_response(session)`.  The function only reads
the session (missing fields, flags, history) to build the request and never
assigns into it; the pair returns the session as left by the call together
with the reply string. -/
def get_next_bot_response (session : Session) (pr : ProviderResult) :
    Session × String :=
  (session, replyOf pr)

/-! `src/server/LLMs/gemini.py` (the older variant, not imported). -/

/-- The accumulation loop of LLMs/gemini.py lines 77-82:
`full_response += chunk.text` with no guard; a chunk whose `text` is
None/absent raises (TypeError/AttributeError), aborting the loop. -/
def accumChunksRaw : List (Option String) → String → Option String
  | [], acc => some acc
  | some t :: rest, acc => accumChunksRaw rest (acc ++ t)
  | none :: _, _ => none

/-- LLMs/gemini.py `get_next_bot_response(session)`: returns the raw
concatenation (no strip, no empty fallback); any exception, including one
raised by a text-less chunk, yields the technical-issue fallback. -/
def get_next_bot_response_LLMs (session : Session) (pr : ProviderResult) :
    Session × String :=
  match pr with
  | ProviderResult.err => (session, techIssueFallback)
  | ProviderResult.ok chunks =>
      match accumChunksRaw chunks "" with
      | some full => (session, full)
      | none => (session, techIssueFallback)

/-- Concatenation of all streamed text fragments in arrival order (the spec's
description of the Turn Processor output, used to relate the loop above to
the claims). -/
def concatTexts : List (Option String) → String
  | [] => ""
  | some t :: rest => t ++ concatTexts rest
  | none :: rest => concatTexts rest

/-! `src/server/main.py`: ConnectionManager and the WebSocket endpoint. -/

/-- `EXIT_KEYWORDS` from main.py line 38. -/
def EXIT_KEYWORDS : List String :=
  ["exit", "quit", "bye", "goodbye"]

/-- main.py line 104: `data.lower().strip() in EXIT_KEYWORDS`. -/
def isExitMessage (data : String) : Bool :=
  EXIT_KEYWORDS.contains (pyStrip (pyLower data))

/-- The fixed welcome string of `ConnectionManager.connect`. -/
def initial_greeting : String :=
  "Welcome to the PGAGI Hiring Assistant! I'm here to help with the initial screening process by gathering some information about you. We can chat naturally - feel free to ask questions at any time. To start, could you tell me your full name?"

/-- The fixed farewell string of main.py line 105. -/
def farewell : String :=
  "Thank you for your time. Ending conversation."

/-- Connections are identified by an opaque id (the websocket object). -/
abbrev Conn := Nat

/-- `self.active_connections`: an insertion-ordered dict keyed by connection.
Keys are unique in every store reachable through the dict operations below. -/
abbrev Store := List (Conn × Session)

/-- Python `websocket in self.active_connections`. -/
def containsConn : Store → Conn → Bool
  | [], _ => false
  | p :: rest, c => p.1 == c || containsConn rest c

/-- Python `self.active_connections[websocket]` as an optional lookup. -/
def lookupConn : Store → Conn → Option Session
  | [], _ => none
  | p :: rest, c => if p.1 == c then some p.2 else lookupConn rest c

/-- Python dict assignment `self.active_connections[websocket] = ...`:
replace the binding in place if the key exists, else append. -/
def storeSet : Store → Conn → Session → Store
  | [], c, s => [(c, s)]
  | p :: rest, c, s =>
      if p.1 == c then (c, s) :: rest else p :: storeSet rest c s

/-- Python `del self.active_connections[websocket]`.  A dict holds at most one
binding per key, so deletion is a filter on the key. -/
def storeDel (st : Store) (c : Conn) : Store :=
  st.filter (fun p => !(p.1 == c))

/-- The fresh session dict built by `ConnectionManager.connect`
(main.py lines 53-61). -/
def freshSession : Session where
  history := [⟨"user", "Hello"⟩, ⟨"model", initial_greeting⟩]
  collected_data := REQUIRED_FIELDS.map (fun f => (f, none))
  tech_questions_asked := false
  tech_answers_collected := false
  application_completed := none

/-- `ConnectionManager.connect`: store the fresh session and send the welcome
string.  Returns the updated store and the texts sent to the client. -/
def connect (st : Store) (c : Conn) : Store × List String :=
  (storeSet st c freshSession, [initial_greeting])

/-- `ConnectionManager.disconnect` (main.py lines 65-69):
`if websocket in self.active_connections: del self.active_connections[websocket]`. -/
def disconnect (st : Store) (c : Conn) : Store :=
  if containsConn st c then storeDel st c else st

/-- `ConnectionManager.handle_message` effect on one session (main.py
lines 74-88): append the user turn, call the processor, append the reply as a
model turn; the reply string is also sent back to the client. -/
def handle_message (s : Session) (input : String) (pr : ProviderResult) :
    Session × String :=
  let s1 : Session := { s with history := s.history ++ [⟨"user", input⟩] }
  let r := get_next_bot_response s1 pr
  ({ r.1 with history := r.1.history ++ [⟨"model", r.2⟩] }, r.2)

/-- `ConnectionManager.handle_message` at store level:
`session = self.get_session_data(websocket)` (a KeyError if absent, which the
endpoint flow never produces, since connect always precedes), then the session
object in the dict is mutated in place. -/
def handleStore (st : Store) (c : Conn) (input : String) (pr : ProviderResult) :
    Store × List String :=
  match lookupConn st c with
  | some s =>
      let r := handle_message s input pr
      (storeSet st c r.1, [r.2])
  | none => (st, [])

/-- Observable outcome of one run of the endpoint on a finite inbound script:
final store, texts sent to the client, inputs forwarded to `handle_message`,
and whether the channel was closed (the `finally` after `break`).  `closed =
false` means the loop is still awaiting the next frame. -/
structure RunResult where
  store : Store
  sent : List String
  handled : List String
  closed : Bool
deriving DecidableEq

/-- The receive loop of `websocket_endpoint` (main.py lines 100-108), driven
by a finite script of inbound messages, each paired with the provider oracle
for its turn.  On an exit keyword: send the farewell and `break` — control
reaches `finally: await websocket.close()` and `manager.disconnect` is NOT
called (it only runs in the two `except` handlers). -/
def wsLoop (c : Conn) :
    Store → List (String × ProviderResult) → List String → List String →
    RunResult
  | st, [], sent, handled => ⟨st, sent, handled, false⟩
  | st, (data, pr) :: rest, sent, handled =>
      if isExitMessage data then
        ⟨st, sent ++ [farewell], handled, true⟩
      else
        let r := handleStore st c data pr
        wsLoop c r.1 rest (sent ++ r.2) (handled ++ [data])

/-- `websocket_endpoint` (main.py lines 95-117) on a finite inbound script:
`manager.connect` (which sends the welcome string), then the receive loop. -/
def websocket_endpoint (c : Conn) (st : Store)
    (msgs : List (String × ProviderResult)) : RunResult :=
  let r := connect st c
  wsLoop c r.1 msgs r.2 []

/-! Operation sequences over the store, for lifetime invariants. -/

/-- One wrapper operation: onConnect, onMessage (with its provider oracle), or
onDisconnect. -/
inductive WrapperOp where
  | opConnect (c : Conn)
  | opMessage (c : Conn) (input : String) (pr : ProviderResult)
  | opDisconnect (c : Conn)

/-- Apply one wrapper operation to the store. -/
def runOp (st : Store) : WrapperOp → Store
  | WrapperOp.opConnect c => (connect st c).1
  | WrapperOp.opMessage c input pr => (handleStore st c input pr).1
  | WrapperOp.opDisconnect c => disconnect st c

/-- Apply a sequence of wrapper operations starting from a store. -/
def runOps (st : Store) (ops : List WrapperOp) : Store :=
  ops.foldl runOp st

/-- A session is inert: every collected field is unset, the stored phase flags
are false, and `application_completed` reads as false. -/
def inertSession (s : Session) : Bool :=
  s.collected_data.all (fun p => p.2.isNone)
    && s.tech_questions_asked == false
    && s.tech_answers_collected == false
    && s.application_completed.getD false == false

/-- Every session in the store is inert. -/
def storeInert : Store → Bool
  | [] => true
  | p :: rest => inertSession p.2 && storeInert rest

/-- Session state after a sequence of handled (non-exit) messages. -/
def sessionAfter (s : Session) (msgs : List (String × ProviderResult)) :
    Session :=
  msgs.foldl (fun cur m => (handle_message cur m.1 m.2).1) s

/-- The history turns contributed by a script of handled messages. -/
def msgsTurns (msgs : List (String × ProviderResult)) : List Turn :=
  (msgs.map (fun m => [⟨"user", m.1⟩, ⟨"model", replyOf m.2⟩])).flatten

/-! Helper lemmas shared by the claim theorems. -/

theorem handle_message_fst (s : Session) (input : String) (pr : ProviderResult) :
    (handle_message s input pr).1
      = { s with history := s.history ++ [⟨"user", input⟩, ⟨"model", replyOf pr⟩] } := by
  simp [handle_message, get_next_bot_response, List.append_assoc]

theorem handle_message_snd (s : Session) (input : String) (pr : ProviderResult) :
    (handle_message s input pr).2 = replyOf pr := rfl

theorem accumChunks_eq (chunks : List (Option String)) :
    ∀ acc : String, accumChunks chunks acc = acc ++ concatTexts chunks := by
  induction chunks with
  | nil => intro acc; simp [accumChunks, concatTexts]
  | cons ch rest ih =>
      intro acc
      match ch with
      | none => simp [accumChunks, concatTexts, ih]
      | some t =>
          by_cases ht : t = ""
          · subst ht
            simp [accumChunks, concatTexts, ih, String.empty_append]
          · simp [accumChunks, concatTexts, ih, ht, String.append_assoc]

theorem accumChunksRaw_eq (chunks : List (Option String))
    (h : ∀ ch ∈ chunks, ch ≠ none) :
    ∀ acc : String, accumChunksRaw chunks acc = some (acc ++ concatTexts chunks) := by
  induction chunks with
  | nil => intro acc; simp [accumChunksRaw, concatTexts]
  | cons ch rest ih =>
      intro acc
      match ch with
      | none => exact absurd rfl (h none (List.mem_cons_self none rest))
      | some t =>
          have hrest : ∀ ch ∈ rest, ch ≠ none :=
            fun ch hm => h ch (List.mem_cons_of_mem _ hm)
          simp [accumChunksRaw, concatTexts, ih hrest, String.append_assoc]

theorem sessionAfter_nil (s : Session) : sessionAfter s [] = s := rfl

theorem sessionAfter_cons (s : Session) (m : String × ProviderResult)
    (rest : List (String × ProviderResult)) :
    sessionAfter s (m :: rest) = sessionAfter (handle_message s m.1 m.2).1 rest := rfl

theorem sessionAfter_history (msgs : List (String × ProviderResult)) :
    ∀ s : Session, (sessionAfter s msgs).history = s.history ++ msgsTurns msgs := by
  induction msgs with
  | nil => intro s; simp [sessionAfter_nil, msgsTurns]
  | cons m rest ih =>
      intro s
      rw [sessionAfter_cons, ih, handle_message_fst]
      simp [msgsTurns, List.append_assoc]

theorem sessionAfter_eq (msgs : List (String × ProviderResult)) :
    ∀ s : Session,
      sessionAfter s msgs
        = { s with history := s.history ++ msgsTurns msgs } := by
  induction msgs with
  | nil => intro s; simp [sessionAfter_nil, msgsTurns]
  | cons m rest ih =>
      intro s
      rw [sessionAfter_cons, handle_message_fst, ih]
      simp [msgsTurns, List.append_assoc]

theorem sessionAfter_fields (msgs : List (String × ProviderResult)) :
    ∀ s : Session,
      (sessionAfter s msgs).collected_data = s.collected_data
    ∧ (sessionAfter s msgs).tech_questions_asked = s.tech_questions_asked
    ∧ (sessionAfter s msgs).tech_answers_collected = s.tech_answers_collected
    ∧ (sessionAfter s msgs).application_completed = s.application_completed := by
  induction msgs with
  | nil => intro s; exact ⟨rfl, rfl, rfl, rfl⟩
  | cons m rest ih =>
      intro s
      rw [sessionAfter_cons, handle_message_fst]
      exact ih _

theorem msgsTurns_length (msgs : List (String × ProviderResult)) :
    (msgsTurns msgs).length = 2 * msgs.length := by
  induction msgs with
  | nil => rfl
  | cons m rest ih => simp [msgsTurns] at ih ⊢; omega

theorem msgsTurns_roles (msgs : List (String × ProviderResult)) :
    ∀ t ∈ msgsTurns msgs, t.role = "user" ∨ t.role = "model" := by
  induction msgs with
  | nil => intro t ht; simp [msgsTurns] at ht
  | cons m rest ih =>
      intro t ht
      simp only [msgsTurns, List.map_cons, List.flatten_cons] at ht
      rcases List.mem_append.1 ht with hhead | htail
      · simp only [List.mem_cons, List.not_mem_nil, or_false] at hhead
        rcases hhead with h1 | h2
        · exact Or.inl (by rw [h1])
        · exact Or.inr (by rw [h2])
      · exact ih t htail

theorem lookup_storeSet_self (c : Conn) (s : Session) :
    ∀ st : Store, lookupConn (storeSet st c s) c = some s := by
  intro st
  induction st with
  | nil => simp [storeSet, lookupConn]
  | cons p rest ih =>
      by_cases hp : p.1 == c
      · simp [storeSet, lookupConn, hp]
      · simp [storeSet, lookupConn, hp, ih]

theorem storeSet_storeSet (c : Conn) (a b : Session) :
    ∀ st : Store, storeSet (storeSet st c a) c b = storeSet st c b := by
  intro st
  induction st with
  | nil => simp [storeSet]
  | cons p rest ih =>
      by_cases hp : p.1 == c
      · simp [storeSet, hp]
      · simp [storeSet, hp, ih]

theorem storeSet_of_lookup (c : Conn) (s : Session) :
    ∀ st : Store, lookupConn st c = some s → storeSet st c s = st := by
  intro st
  induction st with
  | nil => intro h; simp [lookupConn] at h
  | cons p rest ih =>
      intro h
      by_cases hp : p.1 == c
      · have hc : p.1 = c := by simpa using hp
        have hv : p.2 = s := by
          simpa [lookupConn, hp] using h
        simp [storeSet, hp, ← hc, ← hv]
      · have h' : lookupConn rest c = some s := by
          simpa [lookupConn, hp] using h
        simp [storeSet, hp, ih h']

theorem wsLoop_nonexit (c : Conn) (msgs : List (String × ProviderResult))
    (hne : ∀ m ∈ msgs, isExitMessage m.1 = false) :
    ∀ (st : Store) (s : Session) (sent handled : List String),
      lookupConn st c = some s →
      wsLoop c st msgs sent handled =
        ⟨storeSet st c (sessionAfter s msgs),
         sent ++ msgs.map (fun m => replyOf m.2),
         handled ++ msgs.map Prod.fst,
         false⟩ := by
  induction msgs with
  | nil =>
      intro st s sent handled hl
      simp [wsLoop, sessionAfter_nil, storeSet_of_lookup c s st hl]
  | cons m rest ih =>
      intro st s sent handled hl
      have hm : isExitMessage m.1 = false := hne m (List.mem_cons_self m rest)
      have hrest : ∀ x ∈ rest, isExitMessage x.1 = false :=
        fun x hx => hne x (List.mem_cons_of_mem _ hx)
      obtain ⟨data, pr⟩ := m
      have hstep :
          wsLoop c st ((data, pr) :: rest) sent handled =
            wsLoop c (storeSet st c (handle_message s data pr).1) rest
              (sent ++ [(handle_message s data pr).2]) (handled ++ [data]) := by
        simp [wsLoop, hm, handleStore, hl]
      rw [hstep,
        ih hrest (storeSet st c (handle_message s data pr).1)
          (handle_message s data pr).1 _ _
          (lookup_storeSet_self c (handle_message s data pr).1 st)]
      simp [storeSet_storeSet, sessionAfter_cons, handle_message_snd,
        List.append_assoc]

theorem containsConn_storeDel_self (c : Conn) :
    ∀ st : Store, containsConn (storeDel st c) c = false := by
  intro st
  induction st with
  | nil => rfl
  | cons p rest ih =>
      simp only [storeDel, List.filter_cons] at ih ⊢
      by_cases hp : p.1 == c
      · simpa [hp] using ih
      · simpa [hp, containsConn] using ih

theorem storeInert_storeSet (c : Conn) (s : Session) (hs : inertSession s = true) :
    ∀ st : Store, storeInert st = true → storeInert (storeSet st c s) = true := by
  intro st
  induction st with
  | nil => intro _; simp [storeSet, storeInert, hs]
  | cons p rest ih =>
      intro h
      have hp2 : inertSession p.2 = true := by
        simp [storeInert] at h; exact h.1
      have hrest : storeInert rest = true := by
        simp [storeInert] at h; exact h.2
      by_cases hp : p.1 == c
      · simp [storeSet, hp, storeInert, hs, hrest]
      · simp [storeSet, hp, storeInert, hp2, ih hrest]

theorem storeInert_filter (q : Conn × Session → Bool) :
    ∀ st : Store, storeInert st = true → storeInert (st.filter q) = true := by
  intro st
  induction st with
  | nil => intro _; rfl
  | cons p rest ih =>
      intro h
      have hp2 : inertSession p.2 = true := by
        simp [storeInert] at h; exact h.1
      have hrest : storeInert rest = true := by
        simp [storeInert] at h; exact h.2
      by_cases hq : q p
      · simp [List.filter, hq, storeInert, hp2, ih hrest]
      · simp [List.filter, hq, ih hrest]

theorem lookup_storeInert (c : Conn) (s : Session) :
    ∀ st : Store, storeInert st = true → lookupConn st c = some s →
      inertSession s = true := by
  intro st
  induction st with
  | nil => intro _ h; simp [lookupConn] at h
  | cons p rest ih =>
      intro hin h
      have hp2 : inertSession p.2 = true := by
        simp [storeInert] at hin; exact hin.1
      have hrest : storeInert rest = true := by
        simp [storeInert] at hin; exact hin.2
      by_cases hp : p.1 == c
      · have hv : p.2 = s := by simpa [lookupConn, hp] using h
        exact hv ▸ hp2
      · exact ih hrest (by simpa [lookupConn, hp] using h)

theorem inertSession_handle (s : Session) (input : String) (pr : ProviderResult) :
    inertSession (handle_message s input pr).1 = inertSession s := by
  rw [handle_message_fst]
  rfl

theorem storeInert_runOp (st : Store) (op : WrapperOp)
    (h : storeInert st = true) : storeInert (runOp st op) = true := by
  match op with
  | WrapperOp.opConnect c =>
      exact storeInert_storeSet c freshSession (by decide) st h
  | WrapperOp.opMessage c input pr =>
      match hl : lookupConn st c with
      | some s =>
          have hs : inertSession s = true := lookup_storeInert c s st h hl
          have hs' : inertSession (handle_message s input pr).1 = true := by
            rw [inertSession_handle]; exact hs
          simpa [runOp, handleStore, hl] using
            storeInert_storeSet c (handle_message s input pr).1 hs' st h
      | none => simpa [runOp, handleStore, hl] using h
  | WrapperOp.opDisconnect c =>
      by_cases hc : containsConn st c
      · simpa [runOp, disconnect, hc, storeDel] using
          storeInert_filter (fun p => p.1 != c) st h
      · simpa [runOp, disconnect, hc] using h

theorem storeInert_runOps (ops : List WrapperOp) :
    ∀ st : Store, storeInert st = true → storeInert (runOps st ops) = true := by
  induction ops with
  | nil => intro st h; simpa [runOps] using h
  | cons op rest ih =>
      intro st h
      have h1 : storeInert (runOp st op) = true := storeInert_runOp st op h
      simpa [runOps, List.foldl_cons] using ih (runOp st op) h1

/-! Claim theorems. -/

/-- Claim C1 (code bug).  Exit-keyword matching is exact after lowering and
trimming (" Bye ", "EXIT", "Quit" match; "goodbye friend" does not), and on an
exit message the endpoint sends the fixed farewell, never invokes
`handle_message`, and closes the channel — but, contrary to the claim (and to
spec §3, which says the session is discarded on exit-keyword), the Session
Store still contains the connection afterwards: `manager.disconnect` is called
only in the two `except` handlers, never on the `break` path. -/
theorem exit_keyword_leaves_session_in_store :
    isExitMessage " Bye " = true
  ∧ isExitMessage "EXIT" = true
  ∧ isExitMessage "Quit" = true
  ∧ isExitMessage "goodbye friend" = false
  ∧ (websocket_endpoint 0 [] [("exit", ProviderResult.ok [])]).sent
      = [initial_greeting, farewell]
  ∧ (websocket_endpoint 0 [] [("exit", ProviderResult.ok [])]).handled = []
  ∧ (websocket_endpoint 0 [] [("exit", ProviderResult.ok [])]).closed = true
  ∧ containsConn (websocket_endpoint 0 [] [("exit", ProviderResult.ok [])]).store 0
      = true := by
  decide

/-- Claim C2.  Starting from a fresh connection, a script of N non-exit
messages yields a session whose history is the two seeded turns followed by,
per message, exactly one user turn with the inbound text then one model turn
with the Turn Processor's reply; the history length is 2 + 2N and the texts
sent back are the welcome string followed by exactly those replies.  An
exit-keyword message contributes no turns: the loop leaves the store untouched
and terminates the channel. -/
theorem nonexit_script_history_length (c : Conn) (st : Store)
    (msgs : List (String × ProviderResult))
    (hne : ∀ m ∈ msgs, isExitMessage m.1 = false) :
    lookupConn (websocket_endpoint c st msgs).store c
      = some { freshSession with
                 history := freshSession.history ++ msgsTurns msgs }
  ∧ (freshSession.history ++ msgsTurns msgs).length = 2 + 2 * msgs.length
  ∧ (websocket_endpoint c st msgs).sent
      = initial_greeting :: msgs.map (fun m => replyOf m.2)
  ∧ (∀ (data : String) (pr : ProviderResult)
        (rest : List (String × ProviderResult)) (st2 : Store)
        (sent handled : List String),
      isExitMessage data = true →
        (wsLoop c st2 ((data, pr) :: rest) sent handled).store = st2
      ∧ (wsLoop c st2 ((data, pr) :: rest) sent handled).closed = true) := by
  have hrun :
      wsLoop c (storeSet st c freshSession) msgs [initial_greeting] [] =
        ⟨storeSet (storeSet st c freshSession) c (sessionAfter freshSession msgs),
         [initial_greeting] ++ msgs.map (fun m => replyOf m.2),
         [] ++ msgs.map Prod.fst,
         false⟩ :=
    wsLoop_nonexit c msgs hne (storeSet st c freshSession) freshSession
      [initial_greeting] [] (lookup_storeSet_self c freshSession st)
  refine ⟨?_, ?_, ?_, ?_⟩
  · show lookupConn (wsLoop c (storeSet st c freshSession) msgs [initial_greeting] []).store c = _
    rw [hrun]
    show lookupConn (storeSet (storeSet st c freshSession) c
      (sessionAfter freshSession msgs)) c = _
    rw [storeSet_storeSet, lookup_storeSet_self, sessionAfter_eq]
  · rw [List.length_append, msgsTurns_length]
    rfl
  · show (wsLoop c (storeSet st c freshSession) msgs [initial_greeting] []).sent = _
    rw [hrun]
    rfl
  · intro data pr rest st2 sent handled hx
    constructor
    · simp [wsLoop, hx]
    · simp [wsLoop, hx]

/-- Witness for C2: connect then send "John Smith" with a single-chunk reply
"Hi"; the client receives the welcome then "Hi", and the stored session has
the 4 expected turns. -/
theorem nonexit_script_history_length_witness :
    (websocket_endpoint 0 [] [("John Smith", ProviderResult.ok [some "Hi"])]).sent
      = [initial_greeting, "Hi"]
  ∧ lookupConn
      (websocket_endpoint 0 [] [("John Smith", ProviderResult.ok [some "Hi"])]).store 0
      = some { freshSession with
                 history := freshSession.history ++
                   [⟨"user", "John Smith"⟩, ⟨"model", "Hi"⟩] } := by
  have h := nonexit_script_history_length 0 []
    [("John Smith", ProviderResult.ok [some "Hi"])] (by decide)
  constructor
  · rw [h.2.2.1]; decide
  · rw [h.1]; decide

/-- Claim C3.  When the provider call raises, `get_next_bot_response` returns
exactly the fixed technical-issue fallback string (no exception escapes to the
caller), `handle_message` still appends exactly one user turn and one model
turn whose text is that fallback, sends the fallback back, and the session
remains usable: a subsequent message is processed normally. -/
theorem provider_error_fallback_turn (s : Session) (input : String) :
    (get_next_bot_response s ProviderResult.err).2
      = "I'm sorry, I encountered a technical issue. Could you please rephrase that?"
  ∧ (handle_message s input ProviderResult.err).1.history
      = s.history ++ [⟨"user", input⟩, ⟨"model", techIssueFallback⟩]
  ∧ (handle_message s input ProviderResult.err).2 = techIssueFallback
  ∧ ∀ (next : String) (npr : ProviderResult),
      (handle_message (handle_message s input ProviderResult.err).1 next npr).1.history
        = s.history ++ [⟨"user", input⟩, ⟨"model", techIssueFallback⟩,
            ⟨"user", next⟩, ⟨"model", replyOf npr⟩] := by
  refine ⟨rfl, ?_, rfl, ?_⟩
  · rw [handle_message_fst]
    simp [replyOf]
  · intro next npr
    rw [handle_message_fst, handle_message_fst]
    simp [replyOf, List.append_assoc]

/-- Claim C4 counterexample.  On an empty stream the llms Turn Processor
returns its fallback spelled with the U+2019 apostrophe (`couldn’t`), which is
not the claimed string "I'm sorry, I couldn't generate a response." -/
theorem empty_stream_fallback_spelling :
    (get_next_bot_response freshSession (ProviderResult.ok [])).2
      = "I'm sorry, I couldn’t generate a response."
  ∧ (get_next_bot_response freshSession (ProviderResult.ok [])).2
      ≠ "I'm sorry, I couldn't generate a response." := by
  decide

/-- Claim C4 as amended: the reply is the concatenation of all streamed text
fragments in arrival order, stripped of leading and trailing whitespace; when
the provider yields no text at all, the reply is the fixed fallback string
"I'm sorry, I couldn’t generate a response." (with U+2019 in `couldn’t`). -/
theorem reply_is_trimmed_concatenation (s : Session)
    (chunks : List (Option String)) :
    (concatTexts chunks ≠ "" →
      (get_next_bot_response s (ProviderResult.ok chunks)).2
        = pyStrip (concatTexts chunks))
  ∧ (concatTexts chunks = "" →
      (get_next_bot_response s (ProviderResult.ok chunks)).2
        = "I'm sorry, I couldn’t generate a response.") := by
  constructor
  · intro h
    show (if accumChunks chunks "" = "" then noResponseFallback
          else pyStrip (accumChunks chunks "")) = pyStrip (concatTexts chunks)
    rw [accumChunks_eq chunks "", String.empty_append, if_neg h]
  · intro h
    show (if accumChunks chunks "" = "" then noResponseFallback
          else pyStrip (accumChunks chunks "")) = _
    rw [accumChunks_eq chunks "", String.empty_append, if_pos h]
    rfl

/-- Witness for the amended C4: a stream of " ok " plus a skipped chunk yields
"ok"; a stream with only empty/absent text yields the fallback. -/
theorem reply_is_trimmed_concatenation_witness :
    (get_next_bot_response freshSession
        (ProviderResult.ok [some " ok ", none, some ""])).2 = "ok"
  ∧ (get_next_bot_response freshSession (ProviderResult.ok [some "", none])).2
      = "I'm sorry, I couldn’t generate a response." := by
  constructor
  · have h := (reply_is_trimmed_concatenation freshSession
      [some " ok ", none, some ""]).1 (by decide)
    rw [h]; decide
  · exact (reply_is_trimmed_concatenation freshSession [some "", none]).2 (by decide)

/-- Claim C5.  `connect` sends exactly the fixed welcome string and stores a
fresh session whose history is exactly the user greeting placeholder "Hello"
followed by the model welcome turn, with all 7 required fields unset, the two
stored phase flags false, and `application_completed` reading as false. -/
theorem connect_seeds_two_turn_session (st : Store) (c : Conn) :
    (connect st c).2 = [initial_greeting]
  ∧ lookupConn (connect st c).1 c = some freshSession
  ∧ freshSession.history = [⟨"user", "Hello"⟩, ⟨"model", initial_greeting⟩]
  ∧ freshSession.history.length = 2
  ∧ freshSession.collected_data = REQUIRED_FIELDS.map (fun f => (f, none))
  ∧ REQUIRED_FIELDS.length = 7
  ∧ freshSession.collected_data.all (fun p => p.2.isNone) = true
  ∧ freshSession.tech_questions_asked = false
  ∧ freshSession.tech_answers_collected = false
  ∧ freshSession.application_completed.getD false = false :=
  ⟨rfl, lookup_storeSet_self c freshSession st, rfl, rfl, rfl, rfl,
    by decide, rfl, rfl, rfl⟩

/-- Claim C6.  Along any sequence of wrapper operations (onConnect, onMessage,
onDisconnect) from an empty store, every session ever found in the store is
inert: all 7 collected fields are unset, the stored phase flags
`tech_questions_asked` and `tech_answers_collected` are false, and
`application_completed` reads as false — nothing ever flips them. -/
theorem wrapper_never_fills_fields_or_flags (ops : List WrapperOp) (c : Conn)
    (s : Session) (h : lookupConn (runOps [] ops) c = some s) :
    inertSession s = true :=
  lookup_storeInert c s (runOps [] ops) (storeInert_runOps ops [] rfl) h

/-- Witness for C6: after a connect, a handled message, and a disconnect of
another connection, the stored session is inert. -/
theorem wrapper_never_fills_fields_or_flags_witness :
    inertSession
      { freshSession with
          history := freshSession.history ++
            [⟨"user", "hi"⟩, ⟨"model", "hello"⟩] } = true :=
  wrapper_never_fills_fields_or_flags
    [WrapperOp.opConnect 0,
     WrapperOp.opMessage 0 "hi" (ProviderResult.ok [some "hello"]),
     WrapperOp.opDisconnect 1] 0 _ (by decide)

/-- Claim C7 counterexample.  An empty inbound message (and a whitespace-only
stream) appends turns with empty text: the appended user turn is ("user", "")
and the appended model turn is ("model", ""), refuting "every append ... with
non-empty text". -/
theorem empty_input_empty_text_append :
    (handle_message freshSession "" (ProviderResult.ok [some " "])).1.history
      = freshSession.history ++ [⟨"user", ""⟩, ⟨"model", ""⟩]
  ∧ ¬ (∀ t ∈ (handle_message freshSession "" (ProviderResult.ok [some " "])).1.history,
        t.text ≠ "") := by
  decide

/-- Claim C7 as amended: within a session, every append is a (role, text) pair
whose role is "user" or "model", and the history only grows — the previous
history is always a prefix of the later one, so its length is monotonically
non-decreasing.  The appended text may be empty (an empty inbound message, or
a reply that strips to the empty string). -/
theorem history_append_only (s : Session)
    (msgs : List (String × ProviderResult)) :
    (∃ tail : List Turn,
        (sessionAfter s msgs).history = s.history ++ tail
      ∧ ∀ t ∈ tail, t.role = "user" ∨ t.role = "model")
  ∧ s.history.length ≤ (sessionAfter s msgs).history.length := by
  constructor
  · exact ⟨msgsTurns msgs, sessionAfter_history msgs s, msgsTurns_roles msgs⟩
  · rw [sessionAfter_history msgs s, List.length_append]
    exact Nat.le_add_right _ _

/-- Claim C8.  `disconnect` is idempotent: applying it twice equals applying it
once, and applying it to a connection absent from the store is a no-op. -/
theorem disconnect_idempotent (st : Store) (c : Conn) :
    disconnect (disconnect st c) c = disconnect st c
  ∧ (containsConn st c = false → disconnect st c = st) := by
  constructor
  · by_cases hc : containsConn st c
    · have h2 : containsConn (storeDel st c) c = false :=
        containsConn_storeDel_self c st
      simp [disconnect, hc, h2]
    · simp [disconnect, hc]
  · intro hc
    simp [disconnect, hc]

/-- Witness for C8 at a concrete store: removing connection 0 twice equals
removing it once, and removing from the empty store is a no-op. -/
theorem disconnect_idempotent_witness :
    disconnect (disconnect [(0, freshSession)] 0) 0
      = disconnect [(0, freshSession)] 0
  ∧ disconnect [] 0 = [] :=
  ⟨(disconnect_idempotent [(0, freshSession)] 0).1,
   (disconnect_idempotent [] 0).2 rfl⟩

/-- Claim C9.  The Turn Processor does not mutate the session it is given:
for every session and provider outcome (success or error), the session
returned alongside the reply is the session passed in — the caller alone
appends to history. -/
theorem turn_processor_pure (s : Session) (pr : ProviderResult) :
    (get_next_bot_response s pr).1 = s := rfl

/-- Claim C10 counterexample.  The two Turn Processor variants are not
behaviorally equivalent: on an empty stream the imported llms variant returns
its fixed empty-response fallback while the LLMs variant returns the empty
string (and on " hi " they differ by stripping). -/
theorem gemini_variants_differ :
    (get_next_bot_response freshSession (ProviderResult.ok [])).2
      ≠ (get_next_bot_response_LLMs freshSession (ProviderResult.ok [])).2
  ∧ (get_next_bot_response freshSession (ProviderResult.ok [some " hi "])).2
      ≠ (get_next_bot_response_LLMs freshSession (ProviderResult.ok [some " hi "])).2 := by
  decide

/-- Claim C10 as amended: the variants agree on provider errors (same fixed
technical-issue fallback), and on successful streams they agree exactly when
every chunk's text is present and the concatenation is non-empty and already
free of leading/trailing whitespace; otherwise they differ (llms strips and
substitutes fallbacks, LLMs returns the raw concatenation and turns an
absent-text chunk into the technical-issue fallback). -/
theorem gemini_variants_agree_conditionally (s : Session)
    (chunks : List (Option String)) :
    (get_next_bot_response s ProviderResult.err).2
      = (get_next_bot_response_LLMs s ProviderResult.err).2
  ∧ ((∀ ch ∈ chunks, ch ≠ none) → concatTexts chunks ≠ "" →
      pyStrip (concatTexts chunks) = concatTexts chunks →
      (get_next_bot_response s (ProviderResult.ok chunks)).2
        = (get_next_bot_response_LLMs s (ProviderResult.ok chunks)).2) := by
  refine ⟨rfl, ?_⟩
  intro hpresent hne hstrip
  show (if accumChunks chunks "" = "" then noResponseFallback
        else pyStrip (accumChunks chunks ""))
    = (get_next_bot_response_LLMs s (ProviderResult.ok chunks)).2
  rw [accumChunks_eq chunks "", String.empty_append, if_neg hne, hstrip]
  show concatTexts chunks
    = (match accumChunksRaw chunks "" with
        | some full => (s, full)
        | none => (s, techIssueFallback)).2
  rw [accumChunksRaw_eq chunks hpresent "", String.empty_append]

/-- Witness for the amended C10: on the single present chunk "hello" (and on a
provider error) the two variants agree. -/
theorem gemini_variants_agree_conditionally_witness :
    (get_next_bot_response freshSession (ProviderResult.ok [some "hello"])).2
      = (get_next_bot_response_LLMs freshSession (ProviderResult.ok [some "hello"])).2
  ∧ (get_next_bot_response freshSession ProviderResult.err).2
      = (get_next_bot_response_LLMs freshSession ProviderResult.err).2 :=
  ⟨(gemini_variants_agree_conditionally freshSession [some "hello"]).2
      (by decide) (by decide) (by decide),
   (gemini_variants_agree_conditionally freshSession [some "hello"]).1⟩

end PGAGI
